import Mathlib

/-!
Verification development for a small semantic-search service over arXiv
metadata.  The repository has two source files:

  * `scripts/embed_arxiv.py` — an ingestion script: parses a JSONL snapshot,
    filters records by a year derived from the arXiv identifier, caps the
    result at a limit, and stores `(id, document, metadata)` triples into a
    persistent vector collection in batches of `BATCH_SIZE`.
  * `backend/api.py` — an HTTP query service with a `/health` endpoint and a
    `/search` endpoint that validates `n_results` before querying the store.

Python strings are modelled as `List Char`; Python `None`-able values as
`Option`; Python exceptions that the code can raise or catch as `Except` /
`Option` results.  Each definition carries a comment naming the source
construct it embeds.
-/

namespace ArxivSearch

/-! ### Python string primitives -/

/-- Value of an ASCII digit character, `none` on any other character. -/
def digit_val (c : Char) : Option Nat :=
  if c.isDigit then some (c.toNat - 48) else none

/-- Accumulating digit parser: consumes the whole list, failing on the first
non-digit character. -/
def parse_digits_from (acc : Nat) : List Char → Option Nat
  | [] => some acc
  | c :: rest =>
    match digit_val c with
    | none => none
    | some d => parse_digits_from (acc * 10 + d) rest

/-- Parse a non-empty all-digit string to a natural number; `none` otherwise. -/
def parse_digits : List Char → Option Nat
  | [] => none
  | cs => parse_digits_from 0 cs

/-- Model of Python `int(s)` as used in this code base: an optional sign
followed by one or more ASCII digits; any other input raises `ValueError`,
modelled as `none`.  (Python `int` also tolerates surrounding whitespace and
underscores; the source only ever passes slices of identifier strings, where
that tolerance is irrelevant.) -/
def py_int (s : List Char) : Option Int :=
  match s with
  | [] => none
  | c :: rest =>
    if c = '+' then (parse_digits rest).map Int.ofNat
    else if c = '-' then (parse_digits rest).map fun n => -(n : Int)
    else (parse_digits (c :: rest)).map Int.ofNat

/-- Model of Python `s.split(sep)` for a single-character separator: splits at
every occurrence, keeping empty pieces; the result is always non-empty. -/
def py_split (sep : Char) : List Char → List (List Char)
  | [] => [[]]
  | c :: rest =>
    if c = sep then [] :: py_split sep rest
    else
      match py_split sep rest with
      | [] => [[c]]
      | p :: ps => (c :: p) :: ps

/-- Model of Python `s.replace("\n", " ")`: both pattern and replacement are a
single character, so this is a character map. -/
def py_replace_newlines (s : List Char) : List Char :=
  s.map fun c => if c = '\n' then ' ' else c

/-- Model of Python `s.strip()`: remove leading and trailing whitespace. -/
def py_strip (s : List Char) : List Char :=
  ((s.dropWhile Char.isWhitespace).reverse.dropWhile Char.isWhitespace).reverse

/-! ### `scripts/embed_arxiv.py`: year extraction -/

/-- The year conversion `1900 + yy if yy >= 91 else 2000 + yy` of
`get_year_from_arxiv_id`. -/
def two_digit_year_rule (yy : Int) : Int :=
  if yy ≥ 91 then 1900 + yy else 2000 + yy

/-- Embeds `get_year_from_arxiv_id` (`scripts/embed_arxiv.py`):

```python
try:
    if "." in arxiv_id:
        yymm = arxiv_id.split(".")[0]
        yy = int(yymm[:2])
    elif "/" in arxiv_id:
        yymm = arxiv_id.split("/")[1][:4]
        yy = int(yymm[:2])
    else:
        return None
    return 1900 + yy if yy >= 91 else 2000 + yy
except (ValueError, IndexError):
    return None
```

`split(".")[0]` always exists and `split("/")[1]` exists whenever `"/"` is in
the string, so the `IndexError` arm is unreachable; a failing `int` is the
`none` of `py_int`, and the `headD`/`getD` defaults feed `py_int` the empty
string (also `none`), matching the caught-`IndexError` outcome.

The final `return 1900 + yy if yy >= 91 else 2000 + yy` is split out below as
`two_digit_year_rule`. -/
def get_year_from_arxiv_id (arxiv_id : List Char) : Option Int :=
  (if '.' ∈ arxiv_id then
      py_int (((py_split '.' arxiv_id).headD []).take 2)
    else if '/' ∈ arxiv_id then
      py_int ((((py_split '/' arxiv_id).getD 1 []).take 4).take 2)
    else none).map two_digit_year_rule

/-! ### `scripts/embed_arxiv.py`: loading papers -/

/-- A raw JSON record as read from one line of the snapshot file.  The source
accesses `record["id"]`, `record["title"]`, `record["abstract"]` directly and
`record.get("categories", "")`, so `categories` is the only optional field. -/
structure RawRecord where
  id : List Char
  title : List Char
  abstract : List Char
  categories : Option (List Char)
deriving DecidableEq, Repr

/-- One line of the input file: either it parses under `json.loads` to a
record, or `json.loads` raises `JSONDecodeError` (carrying a message). -/
inductive Line where
  | ok (r : RawRecord)
  | malformed (msg : List Char)
deriving DecidableEq, Repr

/-- Model of `json.loads(line)`: a parse failure is an uncaught exception,
modelled as `Except.error`. -/
def json_loads : Line → Except (List Char) RawRecord
  | .ok r => .ok r
  | .malformed msg => .error msg

/-- A paper dict as appended by `load_papers`. -/
structure Paper where
  id : List Char
  title : List Char
  abstract : List Char
  categories : List Char
deriving DecidableEq, Repr

/-- The dict literal appended by `load_papers`:

```python
papers.append({
    "id": record["id"],
    "title": record["title"].replace("\n", " ").strip(),
    "abstract": record["abstract"].replace("\n", " ").strip(),
    "categories": record.get("categories", ""),
})
``` -/
def make_paper (r : RawRecord) : Paper :=
  { id := r.id
    title := py_strip (py_replace_newlines r.title)
    abstract := py_strip (py_replace_newlines r.abstract)
    categories := r.categories.getD [] }

/-- The loop-top break condition `limit is not None and len(papers) >= limit`.
`limit` is a Python `int or None`, so the count is compared as an integer. -/
def limit_reached (limit : Option Int) (n : Nat) : Bool :=
  match limit with
  | none => false
  | some l => decide ((n : Int) ≥ l)

/-- The year-filter skip condition:

```python
if min_year is not None:
    paper_year = get_year_from_arxiv_id(record["id"])
    if paper_year is None or paper_year < min_year:
        continue
``` -/
def skip_by_year (min_year : Option Int) (r : RawRecord) : Bool :=
  match min_year with
  | none => false
  | some m =>
    match get_year_from_arxiv_id r.id with
    | none => true
    | some y => decide (y < m)

/-- A record passes the year filter: the negation of `skip_by_year`. -/
def qualifies (min_year : Option Int) (r : RawRecord) : Bool :=
  !skip_by_year min_year r

/-- The body of `load_papers`' `for line in f` loop, with the accumulated
`papers` list made explicit.  A `break` returns the accumulator; an uncaught
`json.loads` exception aborts the whole call. -/
def load_papers_aux (limit : Option Int) (min_year : Option Int) :
    List Line → List Paper → Except (List Char) (List Paper)
  | [], papers => .ok papers
  | line :: rest, papers =>
    if limit_reached limit papers.length then .ok papers
    else
      match json_loads line with
      | .error e => .error e
      | .ok record =>
        if skip_by_year min_year record then
          load_papers_aux limit min_year rest papers
        else
          load_papers_aux limit min_year rest (papers ++ [make_paper record])

/-- Embeds `load_papers(filepath, limit, min_year)` (`scripts/embed_arxiv.py`);
the opened file is modelled as its list of lines. -/
def load_papers (lines : List Line) (limit : Option Int)
    (min_year : Option Int) : Except (List Char) (List Paper) :=
  load_papers_aux limit min_year lines []

/-! ### `scripts/embed_arxiv.py`: batching and the main run -/

/-- `BATCH_SIZE = 100  # Number of papers per batch for embedding` -/
def BATCH_SIZE : Nat := 100

/-- Iteration core of `range(start, stop, BATCH_SIZE)`: structural recursion
on a fuel that bounds the number of remaining iterations (the step is
positive, so `stop - start` iterations suffice). -/
def range_step_fuel : Nat → Nat → Nat → List Nat
  | 0, _, _ => []
  | fuel + 1, start, stop =>
    if start < stop then
      start :: range_step_fuel fuel (start + BATCH_SIZE) stop
    else []

/-- Model of `range(start, stop, BATCH_SIZE)`, the loop index sequence of the
embedding loop; `range_step_unfold` below recovers the direct recursion. -/
def range_step (start stop : Nat) : List Nat :=
  range_step_fuel (stop - start) start stop

/-- The batch slices taken by the embedding loop:
`papers[i:i + BATCH_SIZE]` for `i in range(0, len(papers), BATCH_SIZE)`. -/
def batches (papers : List α) : List (List α) :=
  (range_step 0 papers.length).map fun i => (papers.drop i).take BATCH_SIZE

/-- The arguments of one `collection.add(documents=..., ids=..., metadatas=...)`
call.  A metadata dict `{"title": ..., "categories": ...}` is the pair
`(title, categories)`. -/
structure AddCall where
  documents : List (List Char)
  ids : List (List Char)
  metadatas : List (List Char × List Char)
deriving DecidableEq, Repr

/-- The loop body of the embedding loop, building one `collection.add` call:

```python
embedding_text = [f"{p['title']} {p['abstract']}" for p in batch]
ids = [p["id"] for p in batch]
metadatas = [{"title": p["title"], "categories": p["categories"]} for p in batch]
collection.add(documents=embedding_text, ids=ids, metadatas=metadatas)
``` -/
def batch_add_call (batch : List Paper) : AddCall :=
  { documents := batch.map fun p => p.title ++ ' ' :: p.abstract
    ids := batch.map fun p => p.id
    metadatas := batch.map fun p => (p.title, p.categories) }

/-- The ordered sequence of `collection.add` calls issued by the embedding
loop of `main` for a given paper list.  The collection computes the embedding
of each document itself (via the configured embedding function), so the calls
carry documents, not vectors. -/
def ingest_calls (papers : List Paper) : List AddCall :=
  (range_step 0 papers.length).map fun i =>
    batch_add_call ((papers.drop i).take BATCH_SIZE)

/-- The `(id, embedding, metadata)` triples stored by one `add` call, for an
abstract embedding function `embed` applied to each document. -/
def stored_triples (embed : List Char → E) (c : AddCall) :
    List (List Char × E × (List Char × List Char)) :=
  ((c.ids.zip (c.documents.map embed)).zip c.metadatas).map
    fun x => (x.1.1, x.1.2, x.2)

/-- The chroma client's state, modelled as the list of names of existing
collections (the source never reads collection contents other than `count()`
for a final log line). -/
abbrev ClientState := List (List Char)

/-- The fixed collection name `"arxiv_papers"`. -/
def collection_name : List Char := "arxiv_papers".toList

/-- Modelled from the spec: `client.delete_collection(name=...)` of the
external chroma client deletes the named collection, and "deleting a
nonexistent collection" raises the `ValueError` that `main` catches. -/
def delete_collection (s : ClientState) (name : List Char) :
    Except Unit ClientState :=
  if name ∈ s then .ok (s.filter fun n => n ≠ name) else .error ()

/-- Modelled from the spec: `client.get_or_create_collection(name=...)`
returns the existing collection or creates an empty one. -/
def get_or_create_collection (s : ClientState) (name : List Char) :
    ClientState :=
  if name ∈ s then s else s ++ [name]

/-- Log line of the successful `--clean` branch (source text, quotes
around the collection name elided). -/
def msg_deleted : List Char := "Deleted existing collection arxiv_papers".toList

/-- Log line of the caught-`ValueError` branch of `--clean`. -/
def msg_no_collection : List Char := "No existing collection to delete".toList

/-- The `--clean` step of `main`:

```python
if args.clean:
    try:
        client.delete_collection(name="arxiv_papers")
        print("Deleted existing collection 'arxiv_papers'")
    except ValueError:
        print("No existing collection to delete")
```

Returns the client state afterwards and the log line printed (empty when the
flag is off). -/
def clean_step (clean : Bool) (s : ClientState) : ClientState × List Char :=
  if clean then
    match delete_collection s collection_name with
    | .ok s1 => (s1, msg_deleted)
    | .error _ => (s, msg_no_collection)
  else (s, [])

/-- `limit = args.limit if args.limit > 0 else None` in `main`. -/
def effective_limit (l : Int) : Option Int :=
  if l > 0 then some l else none

/-- The parsed CLI arguments (`argparse` with `type=int` for `--limit` and
`--year`, `store_true` for `--clean`). -/
structure RunArgs where
  limit : Int
  clean : Bool
  year : Option Int
deriving DecidableEq, Repr

/-- The observable outcome of a run of `main`. -/
structure RunResult where
  client : ClientState
  add_calls : List AddCall
  clean_msg : List Char
deriving DecidableEq, Repr

/-- Embeds the effectful skeleton of `main`: clean step, limit conversion,
`load_papers`, `get_or_create_collection`, then the batched embedding loop.
An uncaught `json.loads` failure aborts the run. -/
def main_run (args : RunArgs) (lines : List Line) (s : ClientState) :
    Except (List Char) RunResult :=
  let cleaned := clean_step args.clean s
  match load_papers lines (effective_limit args.limit) args.year with
  | .error e => .error e
  | .ok papers =>
    .ok { client := get_or_create_collection cleaned.1 collection_name
          add_calls := ingest_calls papers
          clean_msg := cleaned.2 }

/-! ### `backend/api.py`: the query service -/

/-- The `SearchRequest` pydantic model: `query: str`, `n_results: int = 10`. -/
structure SearchRequest where
  query : List Char
  n_results : Int
deriving DecidableEq, Repr

/-- Construction of a `SearchRequest` from a request body in which
`n_results` may be omitted; pydantic fills in the declared default `10`. -/
def SearchRequest.from_body (query : List Char) (n_results : Option Int) :
    SearchRequest :=
  { query := query, n_results := n_results.getD 10 }

/-- One row of a `collection.query` result: chroma returns parallel lists
`ids[0]`, `metadatas[0]`, `distances[0]` of equal length, modelled as one
list of rows.  Float distances are modelled as rationals; the endpoint only
copies them. -/
structure QueryRow where
  id : List Char
  title : List Char
  categories : List Char
  distance : Rat
deriving DecidableEq, Repr

/-- The `SearchResult` response model. -/
structure SearchResult where
  id : List Char
  title : List Char
  categories : List Char
  distance : Rat
deriving DecidableEq, Repr

/-- `raise HTTPException(status_code=..., detail=...)`. -/
structure HTTPException where
  status_code : Nat
  detail : List Char
deriving DecidableEq, Repr

/-- Embeds the `/search` handler `search_papers` (`backend/api.py`):

```python
if request.n_results < 1 or request.n_results > 100:
    raise HTTPException(status_code=400, detail="n_results must be between 1 and 100")
results = collection.query(query_texts=[request.query], n_results=request.n_results)
search_results = [...]
```

The store lookup `collection.query` is abstracted as the function argument
`collection_query`; the handler maps its rows into `SearchResult`s. -/
def search_papers (collection_query : List Char → Int → List QueryRow)
    (request : SearchRequest) : Except HTTPException (List SearchResult) :=
  if request.n_results < 1 ∨ request.n_results > 100 then
    .error ⟨400, "n_results must be between 1 and 100".toList⟩
  else
    .ok ((collection_query request.query request.n_results).map fun row =>
      { id := row.id
        title := row.title
        categories := row.categories
        distance := row.distance })

/-- Whether a handler outcome is a 400-class (client error) HTTP response. -/
def is_client_error : Except HTTPException (List SearchResult) → Bool
  | .error e => decide (400 ≤ e.status_code ∧ e.status_code < 500)
  | .ok _ => false

/-! ### Auxiliary recursive view of the batch slices -/

/-- Consecutive `BATCH_SIZE`-sized chunks of a list, in recursive form;
`batches` (the slice form taken directly from the source loop) is proved
equal to it below. -/
def chunks : List α → List (List α)
  | [] => []
  | a :: t => ((a :: t).take BATCH_SIZE) :: chunks ((a :: t).drop BATCH_SIZE)
termination_by l => l.length
decreasing_by simp [BATCH_SIZE]; omega

/-! ### Sample records for concrete evaluations -/

/-- A record with a new-form 2023 identifier. -/
def sample_r1 : RawRecord :=
  ⟨"2301.11111".toList, "Title one".toList, "Abs one".toList,
    some "cs.AI".toList⟩

/-- A record with a new-form 2023 identifier and no `categories` key. -/
def sample_r2 : RawRecord :=
  ⟨"2302.22222".toList, "Title two".toList, "Abs two".toList, none⟩

/-- A record with a new-form 2014 identifier. -/
def sample_r3 : RawRecord :=
  ⟨"1401.33333".toList, "Title three".toList, "Abs three".toList,
    some "math".toList⟩

/-- A record whose identifier has no dot and no slash. -/
def sample_bad : RawRecord :=
  ⟨"oops".toList, "Bad".toList, "Bad".toList, none⟩

/-! ### Lemmas about the string primitives -/

lemma py_split_of_not_mem (sep : Char) (l : List Char) (h : sep ∉ l) :
    py_split sep l = [l] := by
  induction l with
  | nil => rfl
  | cons c rest ih =>
    simp only [List.mem_cons, not_or] at h
    simp [py_split, Ne.symm h.1, ih h.2]

lemma py_split_append (sep : Char) (a b : List Char) (h : sep ∉ a) :
    py_split sep (a ++ sep :: b) = a :: py_split sep b := by
  induction a with
  | nil => simp [py_split]
  | cons c rest ih =>
    simp only [List.mem_cons, not_or] at h
    simp [py_split, Ne.symm h.1, ih h.2]

lemma digit_ne (c x : Char) (h : c.isDigit = true) (hx : x.isDigit = false) :
    c ≠ x := by
  intro e
  rw [e, hx] at h
  exact absurd h Bool.false_ne_true

lemma not_mem_of_all_digits {sep : Char} (hsep : sep.isDigit = false)
    (l : List Char) (h : ∀ c ∈ l, c.isDigit = true) : sep ∉ l := by
  intro hm
  have hd := h sep hm
  rw [hsep] at hd
  exact absurd hd Bool.false_ne_true

lemma py_int_two_digits (y1 y2 : Char) (h1 : y1.isDigit = true)
    (h2 : y2.isDigit = true) :
    py_int [y1, y2]
      = some (((y1.toNat - 48) * 10 + (y2.toNat - 48) : Nat) : Int) := by
  have hp : y1 ≠ '+' := digit_ne _ _ h1 (by decide)
  have hm : y1 ≠ '-' := digit_ne _ _ h1 (by decide)
  simp [py_int, hp, hm, parse_digits, parse_digits_from, digit_val, h1, h2]

/-! ### Lemmas about `get_year_from_arxiv_id` -/

lemma get_year_new_form (y1 y2 m1 m2 : Char) (n : List Char)
    (h1 : y1.isDigit = true) (h2 : y2.isDigit = true)
    (h3 : m1.isDigit = true) (h4 : m2.isDigit = true) :
    get_year_from_arxiv_id ([y1, y2, m1, m2] ++ '.' :: n)
      = some (two_digit_year_rule
          (((y1.toNat - 48) * 10 + (y2.toNat - 48) : Nat) : Int)) := by
  have hall : ∀ c ∈ [y1, y2, m1, m2], c.isDigit = true := by
    intro c hc
    simp only [List.mem_cons, List.not_mem_nil, or_false] at hc
    rcases hc with rfl | rfl | rfl | rfl <;> assumption
  have hnd : '.' ∉ [y1, y2, m1, m2] := not_mem_of_all_digits (by decide) _ hall
  have hmem : '.' ∈ [y1, y2, m1, m2] ++ '.' :: n := by simp
  rw [get_year_from_arxiv_id, if_pos hmem, py_split_append '.' _ _ hnd]
  simp [py_int_two_digits y1 y2 h1 h2]

lemma get_year_old_form (cat : List Char) (y1 y2 m1 m2 : Char) (n : List Char)
    (hcat_dot : '.' ∉ cat) (hcat_slash : '/' ∉ cat)
    (h1 : y1.isDigit = true) (h2 : y2.isDigit = true)
    (h3 : m1.isDigit = true) (h4 : m2.isDigit = true)
    (hn : ∀ c ∈ n, c.isDigit = true) :
    get_year_from_arxiv_id (cat ++ '/' :: ([y1, y2, m1, m2] ++ n))
      = some (two_digit_year_rule
          (((y1.toNat - 48) * 10 + (y2.toNat - 48) : Nat) : Int)) := by
  have hall : ∀ c ∈ [y1, y2, m1, m2] ++ n, c.isDigit = true := by
    intro c hc
    rcases List.mem_append.mp hc with hc | hc
    · simp only [List.mem_cons, List.not_mem_nil, or_false] at hc
      rcases hc with rfl | rfl | rfl | rfl <;> assumption
    · exact hn c hc
  have hrest_dot : '.' ∉ [y1, y2, m1, m2] ++ n :=
    not_mem_of_all_digits (by decide) _ hall
  have hrest_slash : '/' ∉ [y1, y2, m1, m2] ++ n :=
    not_mem_of_all_digits (by decide) _ hall
  have hno_dot : '.' ∉ cat ++ '/' :: ([y1, y2, m1, m2] ++ n) := by
    intro hc
    rcases List.mem_append.mp hc with hc | hc
    · exact hcat_dot hc
    · rcases List.mem_cons.mp hc with hc | hc
      · exact absurd hc (by decide)
      · exact hrest_dot hc
  have hslash : '/' ∈ cat ++ '/' :: ([y1, y2, m1, m2] ++ n) := by simp
  rw [get_year_from_arxiv_id, if_neg hno_dot, if_pos hslash,
    py_split_append '/' _ _ hcat_slash, py_split_of_not_mem '/' _ hrest_slash]
  have htake : (([y1, y2, m1, m2] ++ n).take 4) = [y1, y2, m1, m2] :=
    List.take_left' rfl
  simp [htake, py_int_two_digits y1 y2 h1 h2]

/-! ### Lemmas about `load_papers` -/

lemma load_aux_none (my : Option Int) (rs : List RawRecord) :
    ∀ acc : List Paper,
      load_papers_aux none my (rs.map Line.ok) acc
        = .ok (acc ++ (rs.filter (qualifies my)).map make_paper) := by
  induction rs with
  | nil => intro acc; simp [load_papers_aux]
  | cons r rs ih =>
    intro acc
    by_cases hskip : skip_by_year my r = true
    · simp [load_papers_aux, limit_reached, json_loads, hskip, qualifies, ih,
        List.filter_cons]
    · simp [load_papers_aux, limit_reached, json_loads, hskip, qualifies, ih,
        List.filter_cons]

lemma load_aux_some (my : Option Int) (l : Int) (rs : List RawRecord) :
    ∀ acc : List Paper,
      load_papers_aux (some l) my (rs.map Line.ok) acc
        = .ok (acc ++ ((rs.filter (qualifies my)).map make_paper).take
            (l - (acc.length : Int)).toNat) := by
  induction rs with
  | nil => intro acc; simp [load_papers_aux]
  | cons r rs ih =>
    intro acc
    by_cases hlim : (acc.length : Int) ≥ l
    · have h0 : (l - (acc.length : Int)).toNat = 0 := by omega
      simp [load_papers_aux, limit_reached, hlim, h0]
    · have hlim' : limit_reached (some l) acc.length = false := by
        simp only [limit_reached, decide_eq_false_iff_not]
        omega
      by_cases hskip : skip_by_year my r = true
      · simp [load_papers_aux, hlim', json_loads, hskip, qualifies, ih,
          List.filter_cons]
      · have hsucc : (l - (acc.length : Int)).toNat
            = (l - ((acc.length : Int) + 1)).toNat + 1 := by omega
        simp only [List.map_cons, load_papers_aux, hlim', Bool.false_eq_true,
          if_false, json_loads]
        rw [if_neg hskip, ih (acc ++ [make_paper r])]
        simp [qualifies, hskip, List.filter_cons, hsucc, List.take_succ_cons]

lemma load_papers_none_eq (my : Option Int) (rs : List RawRecord) :
    load_papers (rs.map Line.ok) none my
      = .ok ((rs.filter (qualifies my)).map make_paper) := by
  simpa [load_papers] using load_aux_none my rs []

lemma load_papers_some_eq (my : Option Int) (l : Int) (rs : List RawRecord) :
    load_papers (rs.map Line.ok) (some l) my
      = .ok (((rs.filter (qualifies my)).map make_paper).take l.toNat) := by
  simpa [load_papers] using load_aux_some my l rs []

lemma load_aux_extra (my : Option Int) (l : Int) (rs : List RawRecord)
    (extra : List Line) :
    ∀ acc : List Paper,
      (acc.length : Int) + ((rs.filter (qualifies my)).length : Int) ≥ l →
      load_papers_aux (some l) my (rs.map Line.ok ++ extra) acc
        = load_papers_aux (some l) my (rs.map Line.ok) acc := by
  induction rs with
  | nil =>
    intro acc h
    have hlim : limit_reached (some l) acc.length = true := by
      simp only [limit_reached, decide_eq_true_eq]
      simp at h
      omega
    cases extra with
    | nil => rfl
    | cons line rest =>
      simp only [List.map_nil, List.nil_append, load_papers_aux, hlim,
        if_true]
  | cons r rs ih =>
    intro acc h
    by_cases hlim : limit_reached (some l) acc.length = true
    · simp only [List.map_cons, List.cons_append, load_papers_aux, hlim,
        if_true]
    · simp only [List.map_cons, List.cons_append, load_papers_aux, hlim,
        if_false, Bool.false_eq_true, json_loads]
      by_cases hskip : skip_by_year my r = true
      · rw [if_pos hskip, if_pos hskip]
        apply ih
        simp only [List.filter_cons, hskip, qualifies, Bool.not_true] at h ⊢
        simpa using h
      · rw [if_neg hskip, if_neg hskip]
        apply ih
        simp only [List.filter_cons, qualifies, hskip] at h ⊢
        simp only [List.length_append, List.length_cons] at h ⊢
        push_cast at h ⊢
        simp at h
        omega

lemma load_aux_mem (my lim : Option Int) :
    ∀ (lines : List Line) (acc out : List Paper),
      load_papers_aux lim my lines acc = .ok out →
      ∀ p ∈ out, p ∈ acc ∨
        ∃ r : RawRecord, p = make_paper r ∧ skip_by_year my r = false := by
  intro lines
  induction lines with
  | nil =>
    intro acc out h p hp
    simp only [load_papers_aux, Except.ok.injEq] at h
    exact Or.inl (h ▸ hp)
  | cons line rest ih =>
    intro acc out h p hp
    rw [load_papers_aux] at h
    by_cases hlim : limit_reached lim acc.length = true
    · rw [if_pos hlim] at h
      simp only [Except.ok.injEq] at h
      exact Or.inl (h ▸ hp)
    · rw [if_neg hlim] at h
      cases line with
      | malformed msg =>
        simp only [json_loads] at h
        exact Except.noConfusion h
      | ok r =>
        simp only [json_loads] at h
        by_cases hskip : skip_by_year my r = true
        · rw [if_pos hskip] at h
          exact ih acc out h p hp
        · rw [if_neg hskip] at h
          rcases ih _ out h p hp with hin | hex
          · rcases List.mem_append.mp hin with hin | hin
            · exact Or.inl hin
            · refine Or.inr ⟨r, ?_, ?_⟩
              · simpa using hin
              · simpa using hskip
          · exact Or.inr hex

lemma load_aux_malformed_none (my : Option Int) (msg : List Char)
    (rest : List Line) (rs : List RawRecord) :
    ∀ acc : List Paper,
      load_papers_aux none my (rs.map Line.ok ++ Line.malformed msg :: rest) acc
        = .error msg := by
  induction rs with
  | nil =>
    intro acc
    simp [load_papers_aux, limit_reached, json_loads]
  | cons r rs ih =>
    intro acc
    by_cases hskip : skip_by_year my r = true <;>
      simp [load_papers_aux, limit_reached, json_loads, hskip, ih]

lemma load_aux_malformed_some (my : Option Int) (l : Int) (msg : List Char)
    (rest : List Line) (rs : List RawRecord) :
    ∀ acc : List Paper,
      (acc.length : Int) + ((rs.filter (qualifies my)).length : Int) < l →
      load_papers_aux (some l) my
          (rs.map Line.ok ++ Line.malformed msg :: rest) acc
        = .error msg := by
  induction rs with
  | nil =>
    intro acc h
    have hlim : limit_reached (some l) acc.length = false := by
      simp only [limit_reached, decide_eq_false_iff_not]
      simp at h
      omega
    simp [load_papers_aux, hlim, json_loads]
  | cons r rs ih =>
    intro acc h
    have hlim : limit_reached (some l) acc.length = false := by
      simp only [limit_reached, decide_eq_false_iff_not]
      omega
    by_cases hskip : skip_by_year my r = true
    · have h' : (acc.length : Int)
          + ((rs.filter (qualifies my)).length : Int) < l := by
        simp only [List.filter_cons, qualifies, hskip, Bool.not_true] at h
        simpa using h
      simp [load_papers_aux, hlim, json_loads, hskip, ih _ h']
    · have hskip' : skip_by_year my r = false := by simpa using hskip
      have h' : (((acc ++ [make_paper r]).length : Int))
          + ((rs.filter (qualifies my)).length : Int) < l := by
        simp only [List.filter_cons, qualifies, hskip', Bool.not_false,
          if_true, List.length_cons, List.length_append, List.length_nil] at h ⊢
        push_cast at h ⊢
        omega
      simp [load_papers_aux, hlim, json_loads, hskip, ih _ h']

/-! ### Lemmas about batching -/

lemma batch_size_pos : 0 < BATCH_SIZE := by decide

lemma range_step_fuel_eq :
    ∀ (f1 : Nat), ∀ (f2 start stop : Nat), stop - start ≤ f1 →
      stop - start ≤ f2 →
      range_step_fuel f1 start stop = range_step_fuel f2 start stop := by
  intro f1
  induction f1 with
  | zero =>
    intro f2 start stop h1 _
    have h : ¬ start < stop := by omega
    cases f2 with
    | zero => rfl
    | succ f2 => simp [range_step_fuel, h]
  | succ f1 ih =>
    intro f2 start stop h1 h2
    cases f2 with
    | zero =>
      have h : ¬ start < stop := by omega
      simp [range_step_fuel, h]
    | succ f2 =>
      by_cases h : start < stop
      · have hB := batch_size_pos
        simp only [range_step_fuel, if_pos h]
        rw [ih f2 (start + BATCH_SIZE) stop (by omega) (by omega)]
      · simp [range_step_fuel, h]

lemma range_step_unfold (start stop : Nat) :
    range_step start stop
      = if start < stop then
          start :: range_step (start + BATCH_SIZE) stop
        else [] := by
  by_cases h : start < stop
  · have hB := batch_size_pos
    obtain ⟨f, hf⟩ : ∃ f, stop - start = f + 1 := ⟨stop - start - 1, by omega⟩
    rw [range_step, hf, if_pos h]
    simp only [range_step_fuel, if_pos h]
    rw [range_step, range_step_fuel_eq f (stop - (start + BATCH_SIZE))
      (start + BATCH_SIZE) stop (by omega) (by omega)]
  · rw [range_step, show stop - start = 0 from by omega, if_neg h]
    rfl

lemma chunks_nil : chunks ([] : List α) = [] := by
  simp [chunks]

lemma chunks_ne_nil_eq (l : List α) (h : l ≠ []) :
    chunks l = l.take BATCH_SIZE :: chunks (l.drop BATCH_SIZE) := by
  cases l with
  | nil => exact absurd rfl h
  | cons a t => simp [chunks]

lemma chunks_eq_nil_iff (l : List α) : chunks l = [] ↔ l = [] := by
  cases l with
  | nil => simp [chunks]
  | cons a t => simp [chunks]

lemma range_step_slices (l : List α) :
    ∀ (k s : Nat), l.length - s ≤ k →
      ((range_step s l.length).map fun i => (l.drop i).take BATCH_SIZE)
        = chunks (l.drop s) := by
  intro k
  induction k with
  | zero =>
    intro s hs
    have h1 : ¬ s < l.length := by omega
    rw [range_step_unfold, if_neg h1, List.map_nil,
      List.drop_eq_nil_of_le (by omega), chunks_nil]
  | succ k ih =>
    intro s hs
    by_cases h : s < l.length
    · have hB := batch_size_pos
      have hne : l.drop s ≠ [] := by
        intro he
        have := List.drop_eq_nil_iff.mp he
        omega
      rw [range_step_unfold, if_pos h, List.map_cons,
        chunks_ne_nil_eq _ hne, List.drop_drop]
      congr 1
      exact ih (s + BATCH_SIZE) (by omega)
    · rw [range_step_unfold, if_neg h, List.map_nil,
        List.drop_eq_nil_of_le (by omega), chunks_nil]

lemma batches_eq_chunks (l : List α) : batches l = chunks l := by
  have h := range_step_slices l l.length 0 (by omega)
  simpa [batches] using h

lemma chunks_flatten_fuel :
    ∀ (k : Nat) (l : List α), l.length ≤ k → (chunks l).flatten = l := by
  intro k
  induction k with
  | zero =>
    intro l hl
    have hnil : l = [] := List.eq_nil_of_length_eq_zero (by omega)
    subst hnil
    rw [chunks_nil]
    rfl
  | succ k ih =>
    intro l hl
    cases l with
    | nil => rw [chunks_nil]; rfl
    | cons a t =>
      have hB := batch_size_pos
      have hk : ((a :: t).drop BATCH_SIZE).length ≤ k := by
        simp only [List.length_cons] at hl
        simp only [List.length_drop, List.length_cons]
        omega
      rw [chunks_ne_nil_eq _ (by simp), List.flatten_cons,
        ih ((a :: t).drop BATCH_SIZE) hk, List.take_append_drop]

lemma chunks_flatten (l : List α) : (chunks l).flatten = l :=
  chunks_flatten_fuel l.length l le_rfl

lemma chunks_mem_fuel :
    ∀ (k : Nat) (l : List α), l.length ≤ k →
      ∀ b ∈ chunks l, b.length ≤ BATCH_SIZE ∧ b ≠ [] := by
  intro k
  induction k with
  | zero =>
    intro l hl
    have hnil : l = [] := List.eq_nil_of_length_eq_zero (by omega)
    subst hnil
    rw [chunks_nil]
    intro b hb
    exact absurd hb (List.not_mem_nil b)
  | succ k ih =>
    intro l hl
    cases l with
    | nil =>
      rw [chunks_nil]
      intro b hb
      exact absurd hb (List.not_mem_nil b)
    | cons a t =>
      have hB := batch_size_pos
      have hk : ((a :: t).drop BATCH_SIZE).length ≤ k := by
        simp only [List.length_cons] at hl
        simp only [List.length_drop, List.length_cons]
        omega
      rw [chunks_ne_nil_eq _ (by simp)]
      intro b hb
      rcases List.mem_cons.mp hb with rfl | hb
      · constructor
        · simp [List.length_take]
        · have hpos : 0 < ((a :: t).take BATCH_SIZE).length := by
            simp only [List.length_take, List.length_cons]
            omega
          exact List.length_pos.mp hpos
      · exact ih ((a :: t).drop BATCH_SIZE) hk b hb

lemma chunks_dropLast_fuel :
    ∀ (k : Nat) (l : List α), l.length ≤ k →
      ∀ b ∈ (chunks l).dropLast, b.length = BATCH_SIZE := by
  intro k
  induction k with
  | zero =>
    intro l hl
    have hnil : l = [] := List.eq_nil_of_length_eq_zero (by omega)
    subst hnil
    rw [chunks_nil]
    intro b hb
    exact absurd hb (List.not_mem_nil b)
  | succ k ih =>
    intro l hl
    cases l with
    | nil =>
      rw [chunks_nil]
      intro b hb
      exact absurd hb (List.not_mem_nil b)
    | cons a t =>
      have hB := batch_size_pos
      have hk : ((a :: t).drop BATCH_SIZE).length ≤ k := by
        simp only [List.length_cons] at hl
        simp only [List.length_drop, List.length_cons]
        omega
      rw [chunks_ne_nil_eq _ (by simp)]
      cases hrest : chunks ((a :: t).drop BATCH_SIZE) with
      | nil =>
        intro b hb
        exact absurd hb (List.not_mem_nil b)
      | cons r0 rest =>
        intro b hb
        rw [List.dropLast_cons₂] at hb
        rcases List.mem_cons.mp hb with rfl | hb
        · have hne : (a :: t).drop BATCH_SIZE ≠ [] := by
            intro he
            rw [he, chunks_nil] at hrest
            exact List.noConfusion hrest
          have hlen : BATCH_SIZE < (a :: t).length := by
            have hgt := mt List.drop_eq_nil_iff.mpr hne
            simp only [List.length_cons] at hgt ⊢
            omega
          simp only [List.length_take, List.length_cons]
          simp only [List.length_cons] at hlen
          omega
        · have hrec := ih ((a :: t).drop BATCH_SIZE) hk b
          rw [hrest] at hrec
          exact hrec hb

lemma stored_triples_batch (embed : List Char → E) (b : List Paper) :
    stored_triples embed (batch_add_call b)
      = b.map fun p =>
          (p.id, embed (p.title ++ ' ' :: p.abstract),
            (p.title, p.categories)) := by
  simp [stored_triples, batch_add_call, List.map_map, List.zip_map']

/-! ### Claim C2 -/

/-- C2 (amended): for every new-form identifier `YYMM.NNNNN` the derived
year is `1900+YY` when `YY ≥ 91` and `2000+YY` when `YY < 91`, `YY` being
the first two digits before the dot; for every old-form identifier
`category/YYMMNNN` whose category contains no dot, the same rule is applied
to the first two digits after the slash; in particular `"2301.12345"`
resolves to 2023, `"9901.00001"` to 1999, and `"hep-th/9901001"` to 1999.
(An old-form identifier with a dotted category is handled by the dot branch
instead — see the counterexample below.) -/
theorem claim_C2_year_rule :
    (∀ (y1 y2 m1 m2 : Char) (n : List Char),
        y1.isDigit = true → y2.isDigit = true →
        m1.isDigit = true → m2.isDigit = true →
        (∀ c ∈ n, c.isDigit = true) →
        get_year_from_arxiv_id ([y1, y2, m1, m2] ++ '.' :: n)
          = some (two_digit_year_rule
              (((y1.toNat - 48) * 10 + (y2.toNat - 48) : Nat) : Int)))
    ∧ (∀ (cat : List Char) (y1 y2 m1 m2 : Char) (n : List Char),
        '.' ∉ cat → '/' ∉ cat →
        y1.isDigit = true → y2.isDigit = true →
        m1.isDigit = true → m2.isDigit = true →
        (∀ c ∈ n, c.isDigit = true) →
        get_year_from_arxiv_id (cat ++ '/' :: ([y1, y2, m1, m2] ++ n))
          = some (two_digit_year_rule
              (((y1.toNat - 48) * 10 + (y2.toNat - 48) : Nat) : Int)))
    ∧ (∀ yy : Int, 91 ≤ yy → two_digit_year_rule yy = 1900 + yy)
    ∧ (∀ yy : Int, yy < 91 → two_digit_year_rule yy = 2000 + yy)
    ∧ get_year_from_arxiv_id "2301.12345".toList = some 2023
    ∧ get_year_from_arxiv_id "9901.00001".toList = some 1999
    ∧ get_year_from_arxiv_id "hep-th/9901001".toList = some 1999 := by
  refine ⟨?_, ?_, ?_, ?_, ?_, ?_, ?_⟩
  · intro y1 y2 m1 m2 n h1 h2 h3 h4 _
    exact get_year_new_form y1 y2 m1 m2 n h1 h2 h3 h4
  · intro cat y1 y2 m1 m2 n hd hs h1 h2 h3 h4 hn
    exact get_year_old_form cat y1 y2 m1 m2 n hd hs h1 h2 h3 h4 hn
  · intro yy h
    rw [two_digit_year_rule, if_pos h]
  · intro yy h
    rw [two_digit_year_rule, if_neg (by omega)]
  · decide
  · decide
  · decide

/-- Counterexample to C2 as stated: `"math.GT/0309136"` is an old-form
identifier `category/YYMMNNN` with a dotted category, so the claimed slash
rule would give `some 2003` (`two_digit_year_rule 3`); but since `"."` is in
the identifier, the code takes the dot branch, attempts `int("ma")`, catches
the `ValueError`, and returns no year at all. -/
theorem claim_C2_year_rule_counterexample :
    get_year_from_arxiv_id "math.GT/0309136".toList = none
    ∧ get_year_from_arxiv_id "math.GT/0309136".toList
        ≠ some (two_digit_year_rule
            ((('0'.toNat - 48) * 10 + ('3'.toNat - 48) : Nat) : Int)) :=
  ⟨by decide, by decide⟩

/-- Witness for C2: the new-form rule applied to `"2301.12345"`. -/
theorem claim_C2_year_rule_witness :
    get_year_from_arxiv_id
        (['2', '3', '0', '1'] ++ '.' :: ['1', '2', '3', '4', '5'])
      = some (two_digit_year_rule
          ((('2'.toNat - 48) * 10 + ('3'.toNat - 48) : Nat) : Int)) :=
  claim_C2_year_rule.1 '2' '3' '0' '1' ['1', '2', '3', '4', '5']
    (by decide) (by decide) (by decide) (by decide) (by decide)

/-! ### Claim C4 -/

/-- C4: for every input file containing at least `L` records that satisfy the
active filter, loading with limit `L` returns exactly the first `L` qualifying
records in file order, and the loader stops reading further lines once `L`
records have been collected: the result on `rs ++ extra` equals the result on
`rs` alone, whatever `extra` holds. -/
theorem claim_C4_limit_first_L :
    ∀ (rs : List RawRecord) (extra : List Line) (my : Option Int) (L : Int),
      ((rs.filter (qualifies my)).length : Int) ≥ L →
      load_papers (rs.map Line.ok ++ extra) (some L) my
        = .ok (((rs.filter (qualifies my)).map make_paper).take L.toNat)
      ∧ load_papers (rs.map Line.ok ++ extra) (some L) my
        = load_papers (rs.map Line.ok) (some L) my := by
  intro rs extra my L h
  have hext := load_aux_extra my L rs extra [] (by simpa using h)
  constructor
  · rw [load_papers, hext]
    exact load_papers_some_eq my L rs
  · rw [load_papers, hext]
    rfl

/-- Witness for C4: three qualifying records, limit 2, and a trailing
malformed line that is never read. -/
theorem claim_C4_limit_first_L_witness :
    ((([sample_r1, sample_r2, sample_r3].filter
        (qualifies none)).length : Int) ≥ 2)
    ∧ (load_papers ([sample_r1, sample_r2, sample_r3].map Line.ok
          ++ [Line.malformed "x".toList]) (some 2) none
        = .ok ((([sample_r1, sample_r2, sample_r3].filter
            (qualifies none)).map make_paper).take (2 : Int).toNat)
      ∧ load_papers ([sample_r1, sample_r2, sample_r3].map Line.ok
          ++ [Line.malformed "x".toList]) (some 2) none
        = load_papers ([sample_r1, sample_r2, sample_r3].map Line.ok)
            (some 2) none) :=
  ⟨by decide, claim_C4_limit_first_L [sample_r1, sample_r2, sample_r3]
    [Line.malformed "x".toList] none 2 (by decide)⟩

/-! ### Claim C5 -/

/-- C5: with an active minimum-year filter, loading a well-formed file never
raises (unparseable identifiers are silently skipped), and every paper in any
successful output has an identifier that resolves to a year `≥` the minimum —
so records with an unresolvable year or a year below the minimum are
excluded. -/
theorem claim_C5_min_year_filter :
    ∀ (rs : List RawRecord) (L : Option Int) (m : Int),
      (∃ out, load_papers (rs.map Line.ok) L (some m) = .ok out)
      ∧ (∀ (lines : List Line) (out : List Paper),
          load_papers lines L (some m) = .ok out →
          ∀ p ∈ out, ∃ y, get_year_from_arxiv_id p.id = some y ∧ m ≤ y) := by
  intro rs L m
  constructor
  · cases L with
    | none => exact ⟨_, load_papers_none_eq (some m) rs⟩
    | some l => exact ⟨_, load_papers_some_eq (some m) l rs⟩
  · intro lines out h p hp
    rcases load_aux_mem (some m) L lines [] out h p hp with hin | ⟨r, rfl, hsk⟩
    · exact absurd hin (List.not_mem_nil p)
    · have hid : (make_paper r).id = r.id := rfl
      rw [hid]
      cases hy : get_year_from_arxiv_id r.id with
      | none =>
        simp only [skip_by_year, hy] at hsk
        exact absurd hsk (by simp)
      | some y =>
        refine ⟨y, rfl, ?_⟩
        simp only [skip_by_year, hy, decide_eq_false_iff_not] at hsk
        omega

/-- Witness for C5: a file with an unparseable id, a 2014 record and a 2023
record, filtered at 2015; the surviving paper's year resolves to 2023. -/
theorem claim_C5_min_year_filter_witness :
    ∃ y, get_year_from_arxiv_id (make_paper sample_r1).id = some y
      ∧ (2015 : Int) ≤ y :=
  (claim_C5_min_year_filter [sample_bad, sample_r3, sample_r1] none 2015).2
    ([sample_bad, sample_r3, sample_r1].map Line.ok) [make_paper sample_r1]
    (by rfl) (make_paper sample_r1) (by decide)

/-! ### Claim C8 -/

/-- C8: a JSON parse failure on any line that is actually reached (every
earlier line parses, and the limit has not short-circuited before the bad
line) aborts the whole load with an uncaught error. -/
theorem claim_C8_parse_failure_fatal :
    ∀ (rs : List RawRecord) (msg : List Char) (rest : List Line)
      (my : Option Int) (lim : Option Int),
      (lim = none ∨ ∃ l, lim = some l ∧
          ((rs.filter (qualifies my)).length : Int) < l) →
      load_papers (rs.map Line.ok ++ Line.malformed msg :: rest) lim my
        = .error msg := by
  intro rs msg rest my lim h
  rcases h with rfl | ⟨l, rfl, hl⟩
  · exact load_aux_malformed_none my msg rest rs []
  · exact load_aux_malformed_some my l msg rest rs [] (by simpa using hl)

/-- Witness for C8: one good record followed by a malformed line under limit
5 aborts with the parse error. -/
theorem claim_C8_parse_failure_fatal_witness :
    load_papers ([sample_r1].map Line.ok
        ++ Line.malformed "bad json".toList :: []) (some 5) none
      = .error "bad json".toList :=
  claim_C8_parse_failure_fatal [sample_r1] "bad json".toList [] none (some 5)
    (Or.inr ⟨5, rfl, by decide⟩)

/-! ### Claim C9 -/

/-- C9: every `--limit` value `≤ 0` is converted to "unlimited" before
loading: it behaves exactly like `--limit 0`, and the load returns all
qualifying records — never an empty cap and never an error. -/
theorem claim_C9_nonpositive_limit :
    ∀ l : Int, l ≤ 0 →
      effective_limit l = none
      ∧ effective_limit l = effective_limit 0
      ∧ (∀ (lines : List Line) (my : Option Int),
          load_papers lines (effective_limit l) my = load_papers lines none my)
      ∧ (∀ (rs : List RawRecord) (my : Option Int),
          load_papers (rs.map Line.ok) (effective_limit l) my
            = .ok ((rs.filter (qualifies my)).map make_paper)) := by
  intro l hl
  have he : effective_limit l = none := by
    rw [effective_limit, if_neg (by omega)]
  refine ⟨he, ?_, ?_, ?_⟩
  · rw [he, effective_limit]
    simp
  · intro lines my
    rw [he]
  · intro rs my
    rw [he]
    exact load_papers_none_eq my rs

/-- Witness for C9: `--limit -5` means no limit, and loads every qualifying
record. -/
theorem claim_C9_nonpositive_limit_witness :
    effective_limit (-5) = none
    ∧ load_papers ([sample_r1].map Line.ok) (effective_limit (-5)) none
      = .ok (([sample_r1].filter (qualifies none)).map make_paper) :=
  ⟨(claim_C9_nonpositive_limit (-5) (by decide)).1,
    (claim_C9_nonpositive_limit (-5) (by decide)).2.2.2 [sample_r1] none⟩

/-! ### Claim C10 -/

/-- C10: a record without a `categories` key loads without failing, the
produced paper carries the empty string as its categories value, and the
metadata built for the `add` call carries that same value. -/
theorem claim_C10_missing_categories :
    ∀ r : RawRecord, r.categories = none →
      (make_paper r).categories = []
      ∧ (∀ papers : List Paper,
          (batch_add_call papers).metadatas
            = papers.map fun p => (p.title, p.categories))
      ∧ (∀ (rs : List RawRecord) (lim my : Option Int), r ∈ rs →
          ∃ out, load_papers (rs.map Line.ok) lim my = .ok out) := by
  intro r hr
  refine ⟨?_, fun papers => rfl, ?_⟩
  · simp [make_paper, hr]
  · intro rs lim my _
    cases lim with
    | none => exact ⟨_, load_papers_none_eq my rs⟩
    | some l => exact ⟨_, load_papers_some_eq my l rs⟩

/-- Witness for C10: `sample_r2` has no categories key and its paper carries
the empty categories string. -/
theorem claim_C10_missing_categories_witness :
    sample_r2.categories = none ∧ (make_paper sample_r2).categories = [] :=
  ⟨rfl, (claim_C10_missing_categories sample_r2 rfl).1⟩

/-! ### Claim C3 -/

/-- C3: `/search` fails with a 400-class error iff `n_results` is outside
`[1, 100]`; in the failing case the outcome does not depend on the store
(the store is never queried); `n_results = 0` and `101` fail while `1` and
`100` pass validation; an omitted `n_results` defaults to 10. -/
theorem claim_C3_n_results_validation :
    ∀ (cq : List Char → Int → List QueryRow) (r : SearchRequest),
      (is_client_error (search_papers cq r) = true
        ↔ (r.n_results < 1 ∨ r.n_results > 100))
      ∧ ((r.n_results < 1 ∨ r.n_results > 100) →
          ∀ cq2 : List Char → Int → List QueryRow,
            search_papers cq2 r = search_papers cq r)
      ∧ (∀ q : List Char,
          is_client_error (search_papers cq ⟨q, 0⟩) = true
          ∧ is_client_error (search_papers cq ⟨q, 101⟩) = true
          ∧ is_client_error (search_papers cq ⟨q, 1⟩) = false
          ∧ is_client_error (search_papers cq ⟨q, 100⟩) = false)
      ∧ (∀ q : List Char, (SearchRequest.from_body q none).n_results = 10) := by
  intro cq r
  have hgen : ∀ r2 : SearchRequest,
      is_client_error (search_papers cq r2) = true
        ↔ (r2.n_results < 1 ∨ r2.n_results > 100) := by
    intro r2
    by_cases h : r2.n_results < 1 ∨ r2.n_results > 100
    · rw [search_papers, if_pos h]
      simpa [is_client_error] using h
    · rw [search_papers, if_neg h]
      simpa [is_client_error] using h
  refine ⟨hgen r, ?_, ?_, fun q => rfl⟩
  · intro h cq2
    rw [search_papers, if_pos h, search_papers, if_pos h]
  · intro q
    refine ⟨(hgen ⟨q, 0⟩).mpr (by simp), (hgen ⟨q, 101⟩).mpr (by simp),
      ?_, ?_⟩
    · have hiff := hgen ⟨q, 1⟩
      by_cases hb : is_client_error (search_papers cq ⟨q, 1⟩) = true
      · have hfalse := hiff.mp hb
        simp at hfalse
      · simpa using hb
    · have hiff := hgen ⟨q, 100⟩
      by_cases hb : is_client_error (search_papers cq ⟨q, 100⟩) = true
      · have hfalse := hiff.mp hb
        simp at hfalse
      · simpa using hb

/-- Witness for C3: with an empty store-query, `n_results = 0` is rejected
with a 400-class error. -/
theorem claim_C3_n_results_validation_witness :
    is_client_error
        (search_papers (fun _ _ => ([] : List QueryRow)) ⟨[], 0⟩) = true :=
  (claim_C3_n_results_validation (fun _ _ => []) ⟨[], 0⟩).1.mpr
    (by norm_num)

/-! ### Claim C6 -/

/-- C6: with the clean flag set, the named collection is absent from the
client state before any batch is processed; deleting a nonexistent collection
is caught and only logged differently (the state is returned unchanged, with
the informational message); a present collection is removed with the success
message; and in either case the run proceeds to loading and ingestion on the
cleaned state. -/
theorem claim_C6_clean_flag :
    ∀ (s : ClientState) (args : RunArgs) (lines : List Line)
      (papers : List Paper),
      args.clean = true →
      collection_name ∉ (clean_step args.clean s).1
      ∧ (collection_name ∉ s →
          clean_step args.clean s = (s, msg_no_collection))
      ∧ (collection_name ∈ s →
          clean_step args.clean s
            = (s.filter fun n => n ≠ collection_name, msg_deleted))
      ∧ (load_papers lines (effective_limit args.limit) args.year
            = .ok papers →
          main_run args lines s
            = .ok { client := get_or_create_collection
                      (clean_step args.clean s).1 collection_name
                    add_calls := ingest_calls papers
                    clean_msg := (clean_step args.clean s).2 }) := by
  intro s args lines papers hc
  refine ⟨?_, ?_, ?_, ?_⟩
  · by_cases hmem : collection_name ∈ s
    · simp [clean_step, delete_collection, hmem, hc, List.mem_filter]
    · simp [clean_step, delete_collection, hmem, hc]
  · intro hmem
    simp [clean_step, delete_collection, hmem, hc]
  · intro hmem
    simp [clean_step, delete_collection, hmem, hc]
  · intro h
    simp only [main_run]
    rw [h]

/-- Witness for C6: a clean run on an empty client with an empty input file
logs the no-op message and proceeds to an (empty) ingestion. -/
theorem claim_C6_clean_flag_witness :
    clean_step (⟨1000, true, none⟩ : RunArgs).clean []
      = ([], msg_no_collection)
    ∧ main_run ⟨1000, true, none⟩ [] []
      = .ok { client := get_or_create_collection
                (clean_step (⟨1000, true, none⟩ : RunArgs).clean []).1
                collection_name
              add_calls := ingest_calls []
              clean_msg := (clean_step (⟨1000, true, none⟩ : RunArgs).clean []).2 } :=
  ⟨(claim_C6_clean_flag [] ⟨1000, true, none⟩ [] [] rfl).2.1
      (List.not_mem_nil collection_name),
    (claim_C6_clean_flag [] ⟨1000, true, none⟩ [] [] rfl).2.2.2 rfl⟩

/-! ### Claim C7 -/

/-- C7: ingestion partitions the loaded papers into consecutive batches of
`BATCH_SIZE = 100` (all full except possibly the last, none empty, and their
concatenation in order is the paper list), issues one `add` call per batch
sequentially in that order, and each paper contributes the triple
`(id, embedding of title ++ " " ++ abstract, {title, categories})`. -/
theorem claim_C7_batching :
    ∀ papers : List Paper,
      (batches papers).flatten = papers
      ∧ (∀ b ∈ batches papers, b.length ≤ BATCH_SIZE ∧ b ≠ [])
      ∧ (∀ b ∈ (batches papers).dropLast, b.length = BATCH_SIZE)
      ∧ ingest_calls papers = (batches papers).map batch_add_call
      ∧ (∀ (E : Type) (embed : List Char → E),
          ((ingest_calls papers).map (stored_triples embed)).flatten
            = papers.map fun p =>
                (p.id, embed (p.title ++ ' ' :: p.abstract),
                  (p.title, p.categories))) := by
  intro papers
  have hb := batches_eq_chunks papers
  have hcalls : ingest_calls papers = (batches papers).map batch_add_call := by
    rw [ingest_calls, batches, List.map_map]
    rfl
  refine ⟨?_, ?_, ?_, hcalls, ?_⟩
  · rw [hb, chunks_flatten]
  · rw [hb]
    exact chunks_mem_fuel papers.length papers le_rfl
  · rw [hb]
    exact chunks_dropLast_fuel papers.length papers le_rfl
  · intro E embed
    rw [hcalls, hb, List.map_map]
    have hmap : (stored_triples embed ∘ batch_add_call)
        = fun b : List Paper => b.map fun p =>
            (p.id, embed (p.title ++ ' ' :: p.abstract),
              (p.title, p.categories)) := by
      funext b
      exact stored_triples_batch embed b
    rw [hmap, ← List.map_flatten, chunks_flatten]

/-- Witness for C7: a concrete one-paper list forms a single, singleton
batch whose add call stores the expected triple. -/
theorem claim_C7_batching_witness :
    (batches [make_paper sample_r1]).flatten = [make_paper sample_r1]
    ∧ ingest_calls [make_paper sample_r1]
      = (batches [make_paper sample_r1]).map batch_add_call
    ∧ ((ingest_calls [make_paper sample_r1]).map
          (stored_triples (fun d => d))).flatten
      = [make_paper sample_r1].map fun p =>
          (p.id, (fun d : List Char => d) (p.title ++ ' ' :: p.abstract),
            (p.title, p.categories)) :=
  ⟨(claim_C7_batching [make_paper sample_r1]).1,
    (claim_C7_batching [make_paper sample_r1]).2.2.2.1,
    (claim_C7_batching [make_paper sample_r1]).2.2.2.2 (List Char)
      (fun d => d)⟩

end ArxivSearch
